import Mathlib

/-!
Shallow embedding, in Lean 4, of the arbitrage engine of the `arb-bot`
repository (`src/arbitrage.rs`, `src/dex.rs`, `src/config.rs`), together with
theorems settling the frozen claims about it.

Modelling conventions:
* `rust_decimal::Decimal` values are modelled by `Rat` (exact arithmetic; the
  operations used by the engine — `+`, `-`, `*`, `/`, `min`, comparisons —
  agree with exact rational arithmetic on the magnitudes involved).
* The `f64` configuration fields (`min_profit_percent`,
  `max_trade_amount_sol`, `slippage_tolerance`) are converted by the source to
  `Decimal` via `Decimal::from_str(&format!("{:.10}", x)).unwrap_or(...)`;
  the model stores the resulting decimal value directly as a `Rat` field.
* External interactions (RPC price reads, pool data fetches, transaction
  sends) are modelled by oracles in an `Env` record, and the observable
  actions the claims speak about (price queries, transaction submissions) are
  recorded in an effect log.
* Fallible Rust code returning `anyhow::Result` is modelled with `Except`;
  the monad `EW` combines the error channel with the effect log, mirroring
  how `?` aborts a computation while keeping the effects already performed.
-/

namespace ArbBot

/-- Observable external actions of the engine: a price query
`dex.get_price(base, quote)` against a venue, and a state-changing
transaction submission to a venue (`send_transaction_with_retry`). -/
inductive Effect where
  | priceQuery (dex base quote : String)
  | sendTx (dex : String)
  deriving DecidableEq, Repr

/-- Error values of the fallible operations the claims touch, corresponding
to the `anyhow::bail!` / `ok_or_else` sites in the source. -/
inductive Err where
  | insufficientLiquidity
  | dexNotFound (name : String)
  | poolUnavailable (dex : String)
  | conversionFailed
  | noOrders (dex : String)
  | sendFailed (dex : String)
  | unknownAdapter (name : String)
  deriving DecidableEq, Repr

deriving instance DecidableEq for Except

/-- Result-with-effect-log monad: an `anyhow::Result` value together with the
list of observable effects performed, in order. An error keeps the effects
performed before the failing `?`, and skips everything after it. -/
structure EW (α : Type) where
  res : Except Err α
  log : List Effect
  deriving DecidableEq, Repr

namespace EW

def bindEW {α β : Type} (x : EW α) (f : α → EW β) : EW β :=
  match x.res with
  | .ok a => ⟨(f a).res, x.log ++ (f a).log⟩
  | .error e => ⟨.error e, x.log⟩

instance : Monad EW where
  pure a := ⟨.ok a, []⟩
  bind := bindEW

def throw {α : Type} (e : Err) : EW α := ⟨.error e, []⟩

def tell (eff : Effect) : EW Unit := ⟨.ok (), [eff]⟩

/-- Models Rust's `Result::unwrap_or`: the effects already performed stay. -/
def unwrapOr {α : Type} (x : EW α) (d : α) : EW α :=
  ⟨.ok (x.res.toOption.getD d), x.log⟩

theorem bind_eq {α β : Type} (x : EW α) (f : α → EW β) :
    x >>= f = bindEW x f := rfl

theorem res_bind_ok {α β : Type} {x : EW α} {a : α} (f : α → EW β)
    (h : x.res = .ok a) : (bindEW x f).res = (f a).res := by
  simp [bindEW, h]

theorem res_bind_error {α β : Type} {x : EW α} {e : Err} (f : α → EW β)
    (h : x.res = .error e) : (bindEW x f).res = .error e := by
  simp [bindEW, h]

theorem log_bind_ok {α β : Type} {x : EW α} {a : α} (f : α → EW β)
    (h : x.res = .ok a) : (bindEW x f).log = x.log ++ (f a).log := by
  simp [bindEW, h]

theorem log_bind_error {α β : Type} {x : EW α} {e : Err} (f : α → EW β)
    (h : x.res = .error e) : (bindEW x f).log = x.log := by
  simp [bindEW, h]

@[simp] theorem res_pure {α : Type} (a : α) : (pure a : EW α).res = .ok a := rfl

@[simp] theorem log_pure {α : Type} (a : α) : (pure a : EW α).log = [] := rfl

@[simp] theorem res_throw {α : Type} (e : Err) : (throw e : EW α).res = .error e := rfl

@[simp] theorem log_throw {α : Type} (e : Err) : (throw e : EW α).log = [] := rfl

@[simp] theorem res_tell (eff : Effect) : (tell eff).res = .ok () := rfl

@[simp] theorem log_tell (eff : Effect) : (tell eff).log = [eff] := rfl

@[simp] theorem res_unwrapOr {α : Type} (x : EW α) (d : α) :
    (unwrapOr x d).res = .ok (x.res.toOption.getD d) := rfl

@[simp] theorem log_unwrapOr {α : Type} (x : EW α) (d : α) :
    (unwrapOr x d).log = x.log := rfl

end EW

/-- Configuration fields used by the engine (`config.rs`), with the `f64`
fields already converted to their decimal values as described above. -/
structure Config where
  enabledDexes : List String
  tradingPairs : List String
  minProfitPercent : Rat
  maxTradeAmountSol : Rat
  slippageTolerance : Rat
  transactionTimeoutSec : Nat
  simulationMode : Bool
  maxConsecutiveFailures : Nat
  deriving DecidableEq, Repr

/-- Oracles for the external world: on-chain prices, pool/market data
availability, order-book availability (Serum), transaction-send outcomes and
the signatures the chain returns. `priceOf dex base quote = none` models a
failing `get_price` call. `poolOk dex from to` collapses the fallible
pre-send steps of a real swap that submit nothing (pool/market fetch,
instruction building, blockhash fetch). -/
structure Env where
  priceOf : String → String → String → Option Rat
  poolOk : String → String → String → Bool
  hasOrders : String → String → Bool
  sendOk : String → Bool
  realSignature : String → String

/-- Embeds `DexManager::new` (dex.rs): the adapters registered, in
configuration order; unknown names are skipped with a warning. -/
def register_dexes (enabled : List String) : List String :=
  enabled.filter (fun n => n = "raydium" || n = "orca" || n = "serum")

/-- Embeds `DexManager::get_dex` (dex.rs): finds a registered adapter by
name. The adapter object is determined by its name, so the model returns
the name itself. -/
def get_dex (cfg : Config) (name : String) : Option String :=
  (register_dexes cfg.enabledDexes).find? (fun d => d = name)

/-- Embeds a call `dex.get_price(base_token, quote_token)`: an external price
read, recorded as a `priceQuery` effect; `none` models a failed read. -/
def dex_get_price (env : Env) (dex base_token quote_token : String) :
    EW (Option Rat) := do
  EW.tell (.priceQuery dex base_token quote_token)
  pure (env.priceOf dex base_token quote_token)

/-- Embeds `ArbitrageEngine::get_dex_fee` (arbitrage.rs). The source returns
`Result` but its `Decimal::from_str` calls on the constant strings cannot
fail, so the model is a total function (and the `unwrap_or(0.25)` defaults at
the call sites are never taken). -/
def get_dex_fee (dex_name : String) : Rat :=
  if dex_name = "raydium" then 25 / 100
  else if dex_name = "orca" then 3 / 10
  else if dex_name = "serum" then 4 / 100
  else 25 / 100

/-- Embeds `ArbitrageEngine::get_dex_liquidity` (arbitrage.rs): errors when
the venue is not registered; otherwise probes the pool with a price read and
reports 1000 on success and 0 on failure. -/
def get_dex_liquidity (cfg : Config) (env : Env)
    (dex_name base_token quote_token : String) : EW Rat :=
  match get_dex cfg dex_name with
  | none => EW.throw (.dexNotFound dex_name)
  | some dex => do
    let p ← dex_get_price env dex base_token quote_token
    match p with
    | some _ => pure 1000
    | none => pure 0

/-- Embeds `ArbitrageEngine::calculate_optimal_trade_amount` (arbitrage.rs). -/
def calculate_optimal_trade_amount (cfg : Config) (env : Env)
    (base_token quote_token buy_dex sell_dex : String) : EW Rat := do
  let max_amount := cfg.maxTradeAmountSol
  let buy_liquidity ←
    EW.unwrapOr (get_dex_liquidity cfg env buy_dex base_token quote_token)
      (max_amount * 10)
  let sell_liquidity ←
    EW.unwrapOr (get_dex_liquidity cfg env sell_dex base_token quote_token)
      (max_amount * 10)
  let available_liquidity := min buy_liquidity sell_liquidity
  let optimal_from_liquidity := available_liquidity * (1 / 10)
  let optimal_amount := min (min max_amount optimal_from_liquidity) available_liquidity
  if optimal_amount ≤ 0 then EW.throw .insufficientLiquidity
  else pure optimal_amount

/-- Embeds the `ArbitrageOpportunity` struct (arbitrage.rs). -/
structure ArbitrageOpportunity where
  from_dex : String
  to_dex : String
  base_token : String
  quote_token : String
  buy_price : Rat
  sell_price : Rat
  profit_percent : Rat
  profit_percent_after_fees : Rat
  trade_amount : Rat
  estimated_fees : Rat
  deriving DecidableEq, Repr

/-- Embeds the price-collection loop of `find_opportunities` (arbitrage.rs,
lines 74–85): every registered venue is queried; failed reads are logged and
dropped. -/
def collect_prices (env : Env) (base_token quote_token : String) :
    List String → EW (List (String × Rat))
  | [] => pure []
  | dex :: rest => do
    let p ← dex_get_price env dex base_token quote_token
    let prices ← collect_prices env base_token quote_token rest
    match p with
    | some price => pure ((dex, price) :: prices)
    | none => pure prices

/-- The ordered pairs `(prices[i], prices[j])` with `i ≠ j`, in the order the
double loop of `find_opportunities` (lines 92–99) visits them. -/
def ordered_distinct_pairs {α : Type} (l : List α) : List (α × α) :=
  l.enum.flatMap (fun p => l.enum.filterMap (fun q =>
    if p.1 = q.1 then none else some (p.2, q.2)))

/-- Embeds the body of the candidate loop of `find_opportunities`
(arbitrage.rs, lines 101–144) for one `(buy, sell)` quote pair: `none` when
no opportunity is produced, `some` when one is pushed; a sizing error
propagates (the source applies `?` to `calculate_optimal_trade_amount`). -/
def process_candidate (cfg : Config) (env : Env)
    (base_token quote_token : String) (buy sell : String × Rat) :
    EW (Option ArbitrageOpportunity) :=
  if buy.2 < sell.2 then do
    let profit_percent := (sell.2 - buy.2) / buy.2 * 100
    let trade_amount ← calculate_optimal_trade_amount cfg env
      base_token quote_token buy.1 sell.1
    let buy_fee_percent := get_dex_fee buy.1
    let sell_fee_percent := get_dex_fee sell.1
    let total_fee_percent := buy_fee_percent + sell_fee_percent
    let profit_after_fees := profit_percent - total_fee_percent
    let estimated_fees := trade_amount * (total_fee_percent / 100)
    let min_profit := cfg.minProfitPercent
    if min_profit ≤ profit_after_fees then
      pure (some ⟨buy.1, sell.1, base_token, quote_token, buy.2, sell.2,
        profit_percent, profit_after_fees, trade_amount, estimated_fees⟩)
    else pure none
  else pure none

/-- Runs `process_candidate` over the candidate pairs in loop order,
collecting the pushed opportunities. -/
def scan_candidates (cfg : Config) (env : Env)
    (base_token quote_token : String) :
    List ((String × Rat) × (String × Rat)) → EW (List ArbitrageOpportunity)
  | [] => pure []
  | c :: rest => do
    let o ← process_candidate cfg env base_token quote_token c.1 c.2
    let os ← scan_candidates cfg env base_token quote_token rest
    match o with
    | some opp => pure (opp :: os)
    | none => pure os

/-- Splitting of a character list at every occurrence of `sep`, keeping empty
segments, as Rust's `str::split` does. -/
def split_chars (sep : Char) : List Char → List (List Char)
  | [] => [[]]
  | c :: cs =>
    match split_chars sep cs with
    | [] => [[]]
    | h :: t => if c = sep then [] :: h :: t else (c :: h) :: t

/-- Embeds `pair.split('/').collect::<Vec<_>>()` (arbitrage.rs, line 65):
Rust's `split` on a single separator keeps empty segments, and an empty
input yields one empty segment. -/
def split_char (sep : Char) (s : String) : List String :=
  (split_chars sep s.data).map (fun cs => String.mk cs)

/-- Embeds one iteration of the trading-pair loop of `find_opportunities`
(arbitrage.rs, lines 64–147): the pair string is split on `'/'`; anything but
exactly two parts is skipped with a warning; with fewer than two collected
prices the pair contributes nothing; otherwise the candidate loop runs. -/
def scan_pair (cfg : Config) (env : Env) (pair : String) :
    EW (List ArbitrageOpportunity) :=
  match split_char '/' pair with
  | [base_token, quote_token] => do
    let prices ← collect_prices env base_token quote_token
      (register_dexes cfg.enabledDexes)
    if prices.length < 2 then pure []
    else scan_candidates cfg env base_token quote_token (ordered_distinct_pairs prices)
  | _ => pure []

/-- Runs `scan_pair` over all configured trading pairs, in order. -/
def scan_pairs (cfg : Config) (env : Env) :
    List String → EW (List ArbitrageOpportunity)
  | [] => pure []
  | p :: rest => do
    let o ← scan_pair cfg env p
    let os ← scan_pairs cfg env rest
    pure (o ++ os)

/-- Stable insertion, descending by `profit_percent_after_fees`: the element
goes before the first list entry it is greater than or equal to, so earlier
elements stay before equal later ones. -/
def insert_desc (o : ArbitrageOpportunity) :
    List ArbitrageOpportunity → List ArbitrageOpportunity
  | [] => [o]
  | x :: xs =>
    if x.profit_percent_after_fees ≤ o.profit_percent_after_fees then o :: x :: xs
    else x :: insert_desc o xs

/-- Embeds `opportunities.sort_by(|a, b| b.profit_percent_after_fees.cmp(&a...))`
(arbitrage.rs, line 150). Rust's `sort_by` is a stable sort under the given
comparator, and every stable sort under the same total comparator produces
the same output, so stable insertion sort is an exact model. -/
def sort_desc (l : List ArbitrageOpportunity) : List ArbitrageOpportunity :=
  l.foldr insert_desc []

/-- Embeds `ArbitrageEngine::find_opportunities` (arbitrage.rs, lines
54–153): empty with fewer than two registered venues; otherwise the scan of
every pair, sorted by net profit descending. -/
def find_opportunities (cfg : Config) (env : Env) :
    EW (List ArbitrageOpportunity) :=
  if (register_dexes cfg.enabledDexes).length < 2 then pure []
  else do
    let opps ← scan_pairs cfg env cfg.tradingPairs
    pure (sort_desc opps)

/-- Successful `Decimal::to_string().parse::<u64>()`: the decimal must be a
non-negative integer within `u64` range. (rust_decimal also renders trailing
fractional zeros from its stored scale, which `Rat` does not track; no claim
depends on that distinction.) -/
def decimal_to_u64_ok (x : Rat) : Bool :=
  x.den == 1 && decide (0 ≤ x.num) && decide (x.num < 2 ^ 64)

/-- Embeds `RaydiumDex::execute_swap` (dex.rs, lines 363–426): in simulation
mode it returns the fixed synthetic reference at once; otherwise it fetches
the pool, converts the amounts, builds and signs the transaction and submits
it with retry. -/
def raydium_execute_swap (env : Env) (simulation_mode : Bool)
    (from_token to_token : String) (amount min_output : Rat) : EW String :=
  if simulation_mode then pure "simulated_signature_raydium"
  else if !env.poolOk "raydium" from_token to_token then
    EW.throw (.poolUnavailable "raydium")
  else if !decimal_to_u64_ok amount then EW.throw .conversionFailed
  else if !decimal_to_u64_ok min_output then EW.throw .conversionFailed
  else do
    EW.tell (.sendTx "raydium")
    if env.sendOk "raydium" then pure (env.realSignature "raydium")
    else EW.throw (.sendFailed "raydium")

/-- Embeds `OrcaDex::execute_swap` (dex.rs, lines 730–793): same structure as
the Raydium adapter, with the Orca synthetic reference. -/
def orca_execute_swap (env : Env) (simulation_mode : Bool)
    (from_token to_token : String) (amount min_output : Rat) : EW String :=
  if simulation_mode then pure "simulated_signature_orca"
  else if !env.poolOk "orca" from_token to_token then
    EW.throw (.poolUnavailable "orca")
  else if !decimal_to_u64_ok amount then EW.throw .conversionFailed
  else if !decimal_to_u64_ok min_output then EW.throw .conversionFailed
  else do
    EW.tell (.sendTx "orca")
    if env.sendOk "orca" then pure (env.realSignature "orca")
    else EW.throw (.sendFailed "orca")

/-- Embeds `SerumDex::execute_swap` (dex.rs, lines 1092–1177): in simulation
mode it returns the fixed synthetic reference at once; otherwise it fetches
the market, converts the amounts, requires the relevant order-book side to be
non-empty (`hasOrders` collapses the side selection and the best bid/ask
check), places the order and submits it with retry. -/
def serum_execute_swap (env : Env) (simulation_mode : Bool)
    (from_token to_token : String) (amount min_output : Rat) : EW String :=
  if simulation_mode then pure "simulated_signature_serum"
  else if !env.poolOk "serum" from_token to_token then
    EW.throw (.poolUnavailable "serum")
  else if !decimal_to_u64_ok amount then EW.throw .conversionFailed
  else if !decimal_to_u64_ok min_output then EW.throw .conversionFailed
  else if !env.hasOrders from_token to_token then EW.throw (.noOrders "serum")
  else do
    EW.tell (.sendTx "serum")
    if env.sendOk "serum" then pure (env.realSignature "serum")
    else EW.throw (.sendFailed "serum")

/-- Dynamic dispatch of `DexInterface::execute_swap` on an adapter found by
`get_dex`. The last branch is unreachable: `register_dexes` only registers
the three adapters above. -/
def dex_execute_swap (env : Env) (dex : String) (simulation_mode : Bool)
    (from_token to_token : String) (amount min_output : Rat) : EW String :=
  if dex = "raydium" then
    raydium_execute_swap env simulation_mode from_token to_token amount min_output
  else if dex = "orca" then
    orca_execute_swap env simulation_mode from_token to_token amount min_output
  else if dex = "serum" then
    serum_execute_swap env simulation_mode from_token to_token amount min_output
  else EW.throw (.unknownAdapter dex)

/-- Embeds `ArbitrageEngine::get_actual_slippage` (arbitrage.rs, lines
340–353): it returns the configured slippage tolerance (its `unwrap_or(1.0)`
default is unreachable), so the `unwrap_or_else` fallback at the call site is
never taken either. -/
def get_actual_slippage (cfg : Config) : Rat :=
  cfg.slippageTolerance

/-- Embeds `ArbitrageEngine::can_execute_atomically` (arbitrage.rs, lines
355–362): the source returns `false` for every pair of adapters. -/
def can_execute_atomically (_buy_dex _sell_dex : String) : Bool :=
  false

/-- Embeds `ArbitrageEngine::execute_two_step_arbitrage` (arbitrage.rs, lines
388–436): buy leg with minimum output 0, then sell leg with the computed
minimum output. The `timeout` wrapper only turns an elapsed timeout into a
failed leg, which the adapters' oracles already model; the timeout length is
kept as an (unused) parameter. -/
def execute_two_step_arbitrage (env : Env) (buy_dex sell_dex : String)
    (opportunity : ArbitrageOpportunity) (min_output : Rat)
    (simulation_mode : Bool) (_tx_timeout : Nat) : EW (String × String) := do
  let buy_signature ← dex_execute_swap env buy_dex simulation_mode
    opportunity.quote_token opportunity.base_token opportunity.trade_amount 0
  let sell_signature ← dex_execute_swap env sell_dex simulation_mode
    opportunity.base_token opportunity.quote_token opportunity.trade_amount min_output
  pure (buy_signature, sell_signature)

/-- Embeds `ArbitrageEngine::execute_atomic_arbitrage` (arbitrage.rs, lines
364–386): atomic execution is not implemented and the source delegates to the
two-step path with the same arguments. -/
def execute_atomic_arbitrage (env : Env) (buy_dex sell_dex : String)
    (opportunity : ArbitrageOpportunity) (min_output : Rat)
    (simulation_mode : Bool) (tx_timeout : Nat) : EW (String × String) :=
  execute_two_step_arbitrage env buy_dex sell_dex opportunity min_output
    simulation_mode tx_timeout

/-- Embeds the `ArbitrageEngine` struct (arbitrage.rs): the configuration,
the external world reachable through the DEX manager, and the only mutable
field, the `u32` consecutive-failure counter (modelled as `Nat`; no claim
involves `u32` overflow). -/
structure Engine where
  cfg : Config
  env : Env
  consecutive_failures : Nat

/-- Errors of `execute_arbitrage`, by bail site: unregistered venue,
consecutive-failure ceiling reached (fatal), and a failed execution path
passed through (transient). -/
inductive ExecErr where
  | dexNotFound (name : String)
  | failureLimitReached (limit : Nat)
  | transient (e : Err)
  deriving DecidableEq, Repr

/-- Embeds `ArbitrageEngine::execute_arbitrage` (arbitrage.rs, lines
156–258), returning the result, the engine after the call (`&mut self`), and
the effects performed. -/
def execute_arbitrage (e : Engine) (opportunity : ArbitrageOpportunity) :
    Except ExecErr Unit × Engine × List Effect :=
  let simulation_mode := e.cfg.simulationMode
  match get_dex e.cfg opportunity.from_dex with
  | none => (.error (.dexNotFound opportunity.from_dex), e, [])
  | some buy_dex =>
    match get_dex e.cfg opportunity.to_dex with
    | none => (.error (.dexNotFound opportunity.to_dex), e, [])
    | some sell_dex =>
      let actual_slippage := get_actual_slippage e.cfg
      let slippage_multiplier := 1 - actual_slippage / 100
      let min_output := opportunity.trade_amount * opportunity.sell_price * slippage_multiplier
      let tx_timeout := e.cfg.transactionTimeoutSec
      let result :=
        if can_execute_atomically buy_dex sell_dex then
          execute_atomic_arbitrage e.env buy_dex sell_dex opportunity
            min_output simulation_mode tx_timeout
        else
          execute_two_step_arbitrage e.env buy_dex sell_dex opportunity
            min_output simulation_mode tx_timeout
      match result.res with
      | .ok _ => (.ok (), { e with consecutive_failures := 0 }, result.log)
      | .error err =>
        let failures := e.consecutive_failures + 1
        if e.cfg.maxConsecutiveFailures ≤ failures then
          (.error (.failureLimitReached e.cfg.maxConsecutiveFailures),
            { e with consecutive_failures := failures }, result.log)
        else
          (.error (.transient err),
            { e with consecutive_failures := failures }, result.log)

/-- The method call `engine.find_opportunities()` (arbitrage.rs, line 54):
the receiver is `&self`, an immutable borrow, so the call is a function of
the engine that returns no updated engine. -/
def engine_find_opportunities (e : Engine) : EW (List ArbitrageOpportunity) :=
  find_opportunities e.cfg e.env

/-! ### Helper lemmas -/

theorem EW.bind_res_ok_inv {α β : Type} {x : EW α} {f : α → EW β} {b : β}
    (h : (EW.bindEW x f).res = .ok b) :
    ∃ a, x.res = .ok a ∧ (f a).res = .ok b := by
  unfold EW.bindEW at h
  cases hx : x.res with
  | ok a => rw [hx] at h; exact ⟨a, rfl, h⟩
  | error e => rw [hx] at h; simp at h

theorem mem_insert_desc {a o : ArbitrageOpportunity}
    {l : List ArbitrageOpportunity} :
    a ∈ insert_desc o l ↔ a = o ∨ a ∈ l := by
  induction l with
  | nil => simp [insert_desc]
  | cons x xs ih =>
    unfold insert_desc
    split
    · simp
    · simp only [List.mem_cons, ih]
      tauto

theorem mem_sort_desc {a : ArbitrageOpportunity}
    {l : List ArbitrageOpportunity} :
    a ∈ sort_desc l ↔ a ∈ l := by
  induction l with
  | nil => simp [sort_desc]
  | cons x xs ih =>
    simp only [sort_desc, List.foldr_cons] at *
    rw [mem_insert_desc, ih, List.mem_cons]

/-- The property claim C1 states of every returned opportunity: exact gross
profit, net profit as gross minus the two venue fees, and net profit at or
above the configured minimum. -/
def opportunity_profit_ok (cfg : Config) (opp : ArbitrageOpportunity) : Prop :=
  opp.profit_percent = (opp.sell_price - opp.buy_price) / opp.buy_price * 100 ∧
  opp.profit_percent_after_fees =
    opp.profit_percent - (get_dex_fee opp.from_dex + get_dex_fee opp.to_dex) ∧
  cfg.minProfitPercent ≤ opp.profit_percent_after_fees

theorem process_candidate_profit {cfg : Config} {env : Env}
    {base_token quote_token : String} {buy sell : String × Rat}
    {opp : ArbitrageOpportunity}
    (h : (process_candidate cfg env base_token quote_token buy sell).res =
      .ok (some opp)) :
    opportunity_profit_ok cfg opp := by
  unfold process_candidate at h
  split at h
  · simp only [EW.bind_eq] at h
    obtain ⟨v, hv, h2⟩ := EW.bind_res_ok_inv h
    split at h2
    · rw [EW.res_pure] at h2
      obtain rfl : _ = opp := Option.some.inj (Except.ok.inj h2)
      refine ⟨rfl, rfl, ?_⟩
      assumption
    · rw [EW.res_pure] at h2
      exact absurd (Except.ok.inj h2) (by simp)
  · rw [EW.res_pure] at h
    exact absurd (Except.ok.inj h) (by simp)

theorem scan_candidates_profit {cfg : Config} {env : Env}
    {base_token quote_token : String} :
    ∀ {cs : List ((String × Rat) × (String × Rat))}
      {opps : List ArbitrageOpportunity},
      (scan_candidates cfg env base_token quote_token cs).res = .ok opps →
      ∀ opp ∈ opps, opportunity_profit_ok cfg opp := by
  intro cs
  induction cs with
  | nil =>
    intro opps h opp hmem
    unfold scan_candidates at h
    rw [EW.res_pure] at h
    obtain rfl := (Except.ok.inj h).symm
    simp at hmem
  | cons c rest ih =>
    intro opps h opp hmem
    unfold scan_candidates at h
    simp only [EW.bind_eq] at h
    obtain ⟨o, ho, h2⟩ := EW.bind_res_ok_inv h
    obtain ⟨os, hos, h3⟩ := EW.bind_res_ok_inv h2
    cases o with
    | some opp2 =>
      rw [EW.res_pure] at h3
      obtain rfl := (Except.ok.inj h3).symm
      rcases List.mem_cons.mp hmem with rfl | hmem2
      · exact process_candidate_profit ho
      · exact ih hos opp hmem2
    | none =>
      rw [EW.res_pure] at h3
      obtain rfl := (Except.ok.inj h3).symm
      exact ih hos opp hmem

theorem scan_pair_profit {cfg : Config} {env : Env} {pair : String}
    {opps : List ArbitrageOpportunity}
    (h : (scan_pair cfg env pair).res = .ok opps) :
    ∀ opp ∈ opps, opportunity_profit_ok cfg opp := by
  intro opp hmem
  unfold scan_pair at h
  split at h
  · simp only [EW.bind_eq] at h
    obtain ⟨prices, hp, h2⟩ := EW.bind_res_ok_inv h
    split at h2
    · rw [EW.res_pure] at h2
      obtain rfl := (Except.ok.inj h2).symm
      simp at hmem
    · exact scan_candidates_profit h2 opp hmem
  · rw [EW.res_pure] at h
    obtain rfl := (Except.ok.inj h).symm
    simp at hmem

theorem scan_pairs_profit {cfg : Config} {env : Env} :
    ∀ {ps : List String} {opps : List ArbitrageOpportunity},
      (scan_pairs cfg env ps).res = .ok opps →
      ∀ opp ∈ opps, opportunity_profit_ok cfg opp := by
  intro ps
  induction ps with
  | nil =>
    intro opps h opp hmem
    unfold scan_pairs at h
    rw [EW.res_pure] at h
    obtain rfl := (Except.ok.inj h).symm
    simp at hmem
  | cons p rest ih =>
    intro opps h opp hmem
    unfold scan_pairs at h
    simp only [EW.bind_eq] at h
    obtain ⟨o, ho, h2⟩ := EW.bind_res_ok_inv h
    obtain ⟨os, hos, h3⟩ := EW.bind_res_ok_inv h2
    rw [EW.res_pure] at h3
    obtain rfl := (Except.ok.inj h3).symm
    rcases List.mem_append.mp hmem with hmem2 | hmem2
    · exact scan_pair_profit ho opp hmem2
    · exact ih hos opp hmem2

theorem scan_pairs_ok_each {cfg : Config} {env : Env} :
    ∀ {ps : List String} {l : List ArbitrageOpportunity},
      (scan_pairs cfg env ps).res = .ok l →
      ∀ p ∈ ps, ∃ opps, (scan_pair cfg env p).res = .ok opps := by
  intro ps
  induction ps with
  | nil => intro l h p hp; simp at hp
  | cons q rest ih =>
    intro l h p hp
    unfold scan_pairs at h
    simp only [EW.bind_eq] at h
    obtain ⟨o, ho, h2⟩ := EW.bind_res_ok_inv h
    obtain ⟨os, hos, _⟩ := EW.bind_res_ok_inv h2
    rcases List.mem_cons.mp hp with rfl | hp2
    · exact ⟨o, ho⟩
    · exact ih hos p hp2

/-! ### Sample inputs used by the witnesses -/

/-- A configuration with two venues, one pair, a 1% minimum profit and a
10 SOL trade cap. -/
def sampleConfig : Config :=
  { enabledDexes := ["raydium", "orca"], tradingPairs := ["SOL/USDC"],
    minProfitPercent := 1, maxTradeAmountSol := 10, slippageTolerance := 1,
    transactionTimeoutSec := 30, simulationMode := true,
    maxConsecutiveFailures := 5 }

/-- An environment where Raydium quotes 100 and Orca quotes 110 for every
pair, and every external call succeeds. -/
def sampleEnv : Env :=
  { priceOf := fun d _ _ =>
      if d = "raydium" then some 100 else if d = "orca" then some 110 else none,
    poolOk := fun _ _ _ => true, hasOrders := fun _ _ => true,
    sendOk := fun _ => true, realSignature := fun _ => "realsig" }

/-- The single opportunity the scan finds on `sampleConfig`/`sampleEnv`:
buy at 100 on Raydium, sell at 110 on Orca, 10% gross,
10 − (0.25 + 0.3) = 9.45% net, trade size 10. -/
def sampleOpportunity : ArbitrageOpportunity :=
  { from_dex := "raydium", to_dex := "orca", base_token := "SOL",
    quote_token := "USDC", buy_price := 100, sell_price := 110,
    profit_percent := 10, profit_percent_after_fees := 189 / 20,
    trade_amount := 10, estimated_fees := 11 / 200 }

/-! ### Claims -/

/-- C1: every opportunity returned by `find_opportunities` has
`profit_percent = (sell_price − buy_price) / buy_price × 100` in exact
arithmetic, `profit_percent_after_fees = profit_percent` minus the sum of the
two venues' fee percentages, and `profit_percent_after_fees` at or above the
configured minimum profit percent; nothing below the minimum is returned. -/
theorem find_opportunities_profit_spec (cfg : Config) (env : Env)
    (opps : List ArbitrageOpportunity) (opp : ArbitrageOpportunity)
    (hres : (find_opportunities cfg env).res = .ok opps) (hmem : opp ∈ opps) :
    opp.profit_percent = (opp.sell_price - opp.buy_price) / opp.buy_price * 100 ∧
    opp.profit_percent_after_fees =
      opp.profit_percent - (get_dex_fee opp.from_dex + get_dex_fee opp.to_dex) ∧
    cfg.minProfitPercent ≤ opp.profit_percent_after_fees := by
  unfold find_opportunities at hres
  split at hres
  · rw [EW.res_pure] at hres
    obtain rfl := (Except.ok.inj hres).symm
    simp at hmem
  · simp only [EW.bind_eq] at hres
    obtain ⟨os, hos, h2⟩ := EW.bind_res_ok_inv hres
    rw [EW.res_pure] at h2
    obtain rfl := (Except.ok.inj h2).symm
    exact scan_pairs_profit hos opp (mem_sort_desc.mp hmem)

/-- C1 witness: on the sample input the scan returns exactly the sample
opportunity, and the profit properties hold of it. -/
theorem find_opportunities_profit_spec_witness :
    sampleOpportunity.profit_percent =
      (sampleOpportunity.sell_price - sampleOpportunity.buy_price) /
        sampleOpportunity.buy_price * 100 ∧
    sampleOpportunity.profit_percent_after_fees =
      sampleOpportunity.profit_percent -
        (get_dex_fee sampleOpportunity.from_dex +
          get_dex_fee sampleOpportunity.to_dex) ∧
    sampleConfig.minProfitPercent ≤ sampleOpportunity.profit_percent_after_fees :=
  find_opportunities_profit_spec sampleConfig sampleEnv [sampleOpportunity]
    sampleOpportunity (by with_unfolding_all decide) (List.Mem.head [])

/-- The liquidity value `calculate_optimal_trade_amount` works with for one
venue: the reported liquidity, or ten times the trade cap when the report
fails (`unwrap_or`). -/
def dex_liquidity_used (cfg : Config) (env : Env)
    (dex base_token quote_token : String) : Rat :=
  (get_dex_liquidity cfg env dex base_token quote_token).res.toOption.getD
    (cfg.maxTradeAmountSol * 10)

/-- The three-bound minimum claim C2 describes: the configured trade cap,
10% of the lesser venue liquidity, and the lesser venue liquidity. -/
def three_bound_min (cfg : Config) (env : Env)
    (base_token quote_token buy_dex sell_dex : String) : Rat :=
  min
    (min cfg.maxTradeAmountSol
      (min (dex_liquidity_used cfg env buy_dex base_token quote_token)
        (dex_liquidity_used cfg env sell_dex base_token quote_token) * (1 / 10)))
    (min (dex_liquidity_used cfg env buy_dex base_token quote_token)
      (dex_liquidity_used cfg env sell_dex base_token quote_token))

/-- C2 counterexample: with a zero decimal trade cap (reachable from a valid
configuration, e.g. `max_trade_amount_sol = 4e-11`, which passes the `> 0.0`
validation but formats to `0.0000000000`), the first candidate's size is
`min(0, 100, 1000) = 0`, sizing bails, and the `?` on line 113 of
arbitrage.rs makes the whole scan return the error: the candidate is not
discarded and the scan does not continue, refuting the claim as stated. -/
theorem scan_aborts_on_insufficient_liquidity :
    (find_opportunities { sampleConfig with maxTradeAmountSol := 0 }
      sampleEnv).res = .error .insufficientLiquidity := by
  with_unfolding_all decide

/-- C2 amended: the computed size, when sizing succeeds, is exactly the
three-bound minimum, and sizing succeeds precisely when that minimum is
positive, failing with `InsufficientLiquidity` otherwise; but the failure is
not confined to the candidate: a scan that returns a list at all (with at
least two venues registered) is one in which every configured pair's scan,
including every sizing step, succeeded — the error aborts the whole scan. -/
theorem calculate_trade_amount_amended (cfg : Config) (env : Env)
    (base_token quote_token buy_dex sell_dex : String) :
    ((0 < three_bound_min cfg env base_token quote_token buy_dex sell_dex →
      (calculate_optimal_trade_amount cfg env base_token quote_token
        buy_dex sell_dex).res =
        .ok (three_bound_min cfg env base_token quote_token buy_dex sell_dex)) ∧
     (three_bound_min cfg env base_token quote_token buy_dex sell_dex ≤ 0 →
      (calculate_optimal_trade_amount cfg env base_token quote_token
        buy_dex sell_dex).res = .error .insufficientLiquidity)) ∧
    (∀ l : List ArbitrageOpportunity,
      ¬ (register_dexes cfg.enabledDexes).length < 2 →
      (find_opportunities cfg env).res = .ok l →
      ∀ p ∈ cfg.tradingPairs, ∃ opps, (scan_pair cfg env p).res = .ok opps) := by
  constructor
  · unfold three_bound_min dex_liquidity_used calculate_optimal_trade_amount
    simp only [EW.bind_eq, EW.bindEW, EW.res_unwrapOr]
    constructor
    · intro hpos
      rw [if_neg (not_le.mpr hpos)]
      rfl
    · intro hle
      rw [if_pos hle]
      rfl
  · intro l hlen h p hp
    unfold find_opportunities at h
    split at h
    · exact absurd (by assumption) hlen
    · simp only [EW.bind_eq] at h
      obtain ⟨os, hos, _⟩ := EW.bind_res_ok_inv h
      exact scan_pairs_ok_each hos p hp

/-- C2 witness: on the sample input the size is the three-bound minimum
(the positive case), on the zero-cap input sizing fails with
`InsufficientLiquidity` (the non-positive case), and the sample scan, which
returns a list, has a succeeding pair scan. -/
theorem calculate_trade_amount_amended_witness :
    (calculate_optimal_trade_amount sampleConfig sampleEnv "SOL" "USDC"
      "raydium" "orca").res =
      .ok (three_bound_min sampleConfig sampleEnv "SOL" "USDC"
        "raydium" "orca") ∧
    (calculate_optimal_trade_amount { sampleConfig with maxTradeAmountSol := 0 }
      sampleEnv "SOL" "USDC" "raydium" "orca").res =
      .error .insufficientLiquidity ∧
    ∃ opps, (scan_pair sampleConfig sampleEnv "SOL/USDC").res = .ok opps :=
  ⟨(calculate_trade_amount_amended sampleConfig sampleEnv "SOL" "USDC"
      "raydium" "orca").1.1 (by with_unfolding_all decide),
   (calculate_trade_amount_amended { sampleConfig with maxTradeAmountSol := 0 }
      sampleEnv "SOL" "USDC" "raydium" "orca").1.2 (by with_unfolding_all decide),
   (calculate_trade_amount_amended sampleConfig sampleEnv "SOL" "USDC"
      "raydium" "orca").2 [sampleOpportunity] (by decide)
      (by with_unfolding_all decide) "SOL/USDC" (List.Mem.head [])⟩

theorem get_dex_some_eq {cfg : Config} {name d : String}
    (h : get_dex cfg name = some d) : d = name := by
  have := List.find?_some h
  simpa using this

/-- An engine set two failures below a ceiling of 3, in real (non-simulation)
mode, against an environment whose pool data is unavailable, so every real
swap fails before submitting anything. -/
def failingEngine : Engine where
  cfg := { sampleConfig with simulationMode := false, maxConsecutiveFailures := 3 }
  env := { sampleEnv with poolOk := fun _ _ _ => false }
  consecutive_failures := 2

/-- C3: with the consecutive-failure counter one below the ceiling, a failing
execution increments it to the ceiling and returns the fatal
limit-reached error, which is distinct from the transient error wrapper; the
same failure below the ceiling returns the transient error. -/
theorem execute_arbitrage_failure_ceiling (e : Engine)
    (opp : ArbitrageOpportunity) (err : Err)
    (hbuy : get_dex e.cfg opp.from_dex = some opp.from_dex)
    (hsell : get_dex e.cfg opp.to_dex = some opp.to_dex)
    (hfail : (execute_two_step_arbitrage e.env opp.from_dex opp.to_dex opp
      (opp.trade_amount * opp.sell_price * (1 - get_actual_slippage e.cfg / 100))
      e.cfg.simulationMode e.cfg.transactionTimeoutSec).res = .error err)
    (hceil : e.consecutive_failures + 1 = e.cfg.maxConsecutiveFailures) :
    (execute_arbitrage e opp).1 =
      .error (.failureLimitReached e.cfg.maxConsecutiveFailures) ∧
    (execute_arbitrage e opp).2.1.consecutive_failures =
      e.cfg.maxConsecutiveFailures ∧
    (∀ err2 : Err,
      ExecErr.failureLimitReached e.cfg.maxConsecutiveFailures ≠
        .transient err2) ∧
    (∀ n : Nat, n + 1 < e.cfg.maxConsecutiveFailures →
      (execute_arbitrage { e with consecutive_failures := n } opp).1 =
        .error (.transient err)) := by
  refine ⟨?_, ?_, fun err2 h => ExecErr.noConfusion h, ?_⟩
  · unfold execute_arbitrage
    simp only [hbuy, hsell, can_execute_atomically, Bool.false_eq_true,
      if_false, hfail]
    rw [if_pos (le_of_eq hceil.symm)]
  · unfold execute_arbitrage
    simp only [hbuy, hsell, can_execute_atomically, Bool.false_eq_true,
      if_false, hfail]
    rw [if_pos (le_of_eq hceil.symm)]
    exact hceil
  · intro n hlt
    unfold execute_arbitrage
    simp only [hbuy, hsell, can_execute_atomically, Bool.false_eq_true,
      if_false, hfail]
    rw [if_neg (not_le.mpr hlt)]

/-- C3 witness: `failingEngine` with the sample opportunity: the buy leg
fails with unavailable pool data, the call returns the fatal error, the
counter reaches the ceiling 3, and with counter 0 the same failure returns
the transient error. -/
theorem execute_arbitrage_failure_ceiling_witness :
    (execute_arbitrage failingEngine sampleOpportunity).1 =
      .error (.failureLimitReached 3) ∧
    (execute_arbitrage failingEngine sampleOpportunity).2.1.consecutive_failures = 3 ∧
    ExecErr.failureLimitReached 3 ≠ .transient (.poolUnavailable "raydium") ∧
    (execute_arbitrage { failingEngine with consecutive_failures := 0 }
      sampleOpportunity).1 =
      .error (.transient (.poolUnavailable "raydium")) := by
  have T := execute_arbitrage_failure_ceiling failingEngine sampleOpportunity
    (.poolUnavailable "raydium") (by with_unfolding_all decide)
    (by with_unfolding_all decide) (by with_unfolding_all decide)
    (by with_unfolding_all decide)
  exact ⟨T.1, T.2.1, T.2.2.1 (.poolUnavailable "raydium"),
    T.2.2.2 0 (by with_unfolding_all decide)⟩

/-- C4: a call whose two-leg execution succeeds returns success and sets the
consecutive-failure counter to exactly 0, whatever its prior value. -/
theorem execute_arbitrage_success_resets (e : Engine)
    (opp : ArbitrageOpportunity) (sigs : String × String)
    (hbuy : get_dex e.cfg opp.from_dex = some opp.from_dex)
    (hsell : get_dex e.cfg opp.to_dex = some opp.to_dex)
    (hok : (execute_two_step_arbitrage e.env opp.from_dex opp.to_dex opp
      (opp.trade_amount * opp.sell_price * (1 - get_actual_slippage e.cfg / 100))
      e.cfg.simulationMode e.cfg.transactionTimeoutSec).res = .ok sigs) :
    (execute_arbitrage e opp).1 = .ok () ∧
    (execute_arbitrage e opp).2.1.consecutive_failures = 0 := by
  unfold execute_arbitrage
  simp only [hbuy, hsell, can_execute_atomically, Bool.false_eq_true,
    if_false, hok]
  exact ⟨trivial, trivial⟩

/-- C4 witness: the sample engine in simulation mode with prior counter 7:
both legs succeed synthetically and the counter becomes 0. -/
theorem execute_arbitrage_success_resets_witness :
    (execute_arbitrage ⟨sampleConfig, sampleEnv, 7⟩ sampleOpportunity).1 =
      .ok () ∧
    (execute_arbitrage ⟨sampleConfig, sampleEnv, 7⟩
      sampleOpportunity).2.1.consecutive_failures = 0 :=
  execute_arbitrage_success_resets ⟨sampleConfig, sampleEnv, 7⟩
    sampleOpportunity ("simulated_signature_raydium", "simulated_signature_orca")
    (by with_unfolding_all decide) (by with_unfolding_all decide)
    (by with_unfolding_all decide)

/-- C5: with the dry-run flag set, each adapter's `execute_swap` performs no
effect at all — in particular no transaction submission — and returns its
fixed synthetic reference, which carries the `simulated_` marker. -/
theorem dry_run_swap_synthetic (env : Env)
    (from_token to_token : String) (amount min_output : Rat) :
    (raydium_execute_swap env true from_token to_token amount min_output =
        ⟨.ok "simulated_signature_raydium", []⟩ ∧
      "simulated_signature_raydium".startsWith "simulated_" = true) ∧
    (orca_execute_swap env true from_token to_token amount min_output =
        ⟨.ok "simulated_signature_orca", []⟩ ∧
      "simulated_signature_orca".startsWith "simulated_" = true) ∧
    (serum_execute_swap env true from_token to_token amount min_output =
        ⟨.ok "simulated_signature_serum", []⟩ ∧
      "simulated_signature_serum".startsWith "simulated_" = true) :=
  ⟨⟨rfl, by with_unfolding_all decide⟩, ⟨rfl, by with_unfolding_all decide⟩,
    ⟨rfl, by with_unfolding_all decide⟩⟩

/-- C6: with fewer than two registered venues the scan returns the empty
list and performs no effects — in particular no price queries. -/
theorem no_scan_with_fewer_than_two_venues (cfg : Config) (env : Env)
    (h : (register_dexes cfg.enabledDexes).length < 2) :
    find_opportunities cfg env = ⟨.ok [], []⟩ := by
  unfold find_opportunities
  rw [if_pos h]
  rfl

/-- C6 witness: with only Raydium enabled the scan is empty and silent. -/
theorem no_scan_with_fewer_than_two_venues_witness :
    find_opportunities { sampleConfig with enabledDexes := ["raydium"] }
      sampleEnv = ⟨.ok [], []⟩ :=
  no_scan_with_fewer_than_two_venues
    { sampleConfig with enabledDexes := ["raydium"] } sampleEnv
    (by with_unfolding_all decide)

/-- C7 counterexample: the pair `"SOL/"` does not split into two non-empty
tokens (its quote token is empty), yet the scan does not skip it: it queries
Raydium for the price of `SOL/""`, refuting the claim that no prices are
queried for such a pair. The source only checks `parts.len() == 2`, and
`"SOL/".split('/')` has exactly two parts. -/
theorem malformed_pair_is_queried :
    Effect.priceQuery "raydium" "SOL" "" ∈
      (find_opportunities { sampleConfig with tradingPairs := ["SOL/"] }
        sampleEnv).log := by
  with_unfolding_all decide

/-- C7 amended: every configured pair that does not split into exactly two
tokens around `'/'` — the tokens may be empty — is skipped: its scan
performs no effects (no price queries), produces no candidates, and cannot
fail. -/
theorem scan_pair_skips_malformed (cfg : Config) (env : Env) (pair : String)
    (h : (split_char '/' pair).length ≠ 2) :
    scan_pair cfg env pair = ⟨.ok [], []⟩ := by
  unfold scan_pair
  cases hs : split_char '/' pair with
  | nil => rfl
  | cons a t =>
    cases t with
    | nil => rfl
    | cons b t2 =>
      cases t2 with
      | nil => rw [hs] at h; simp at h
      | cons c t3 => rfl

/-- C7 witness: the pair `"SOL"` has one part, and its scan is skipped. -/
theorem scan_pair_skips_malformed_witness :
    scan_pair sampleConfig sampleEnv "SOL" = ⟨.ok [], []⟩ :=
  scan_pair_skips_malformed sampleConfig sampleEnv "SOL"
    (by with_unfolding_all decide)

/-- C8: the atomic-execution capability query answers `false` for every pair
of venues, and the atomic path is extensionally identical to the two-step
path (the source delegates to it with the same arguments). -/
theorem atomic_path_disabled_and_equal :
    (∀ buy_dex sell_dex : String,
      can_execute_atomically buy_dex sell_dex = false) ∧
    (∀ (env : Env) (buy_dex sell_dex : String) (opp : ArbitrageOpportunity)
      (min_output : Rat) (simulation_mode : Bool) (tx_timeout : Nat),
      execute_atomic_arbitrage env buy_dex sell_dex opp min_output
        simulation_mode tx_timeout =
      execute_two_step_arbitrage env buy_dex sell_dex opp min_output
        simulation_mode tx_timeout) :=
  ⟨fun _ _ => rfl, fun _ _ _ _ _ _ _ => rfl⟩

/-- C9: `find_opportunities` takes `&self`, so the embedded call is a
function of the engine that returns no updated engine; its outcome — result
and effects alike — does not depend on the engine's only mutable field, the
consecutive-failure counter. -/
theorem find_opportunities_ignores_mutable_state (cfg : Config) (env : Env)
    (n₁ n₂ : Nat) :
    engine_find_opportunities ⟨cfg, env, n₁⟩ =
      engine_find_opportunities ⟨cfg, env, n₂⟩ := rfl

/-- C10: an unregistered buy or sell venue makes `execute_arbitrage` return
the not-found error with no effects performed (no leg submitted) and the
engine — in particular the failure counter — unchanged; and the counter is
incremented only when the two-step execution path itself fails. -/
theorem execute_arbitrage_unknown_venue (e : Engine)
    (opp : ArbitrageOpportunity) :
    (get_dex e.cfg opp.from_dex = none →
      execute_arbitrage e opp = (.error (.dexNotFound opp.from_dex), e, [])) ∧
    (get_dex e.cfg opp.from_dex = some opp.from_dex →
      get_dex e.cfg opp.to_dex = none →
      execute_arbitrage e opp = (.error (.dexNotFound opp.to_dex), e, [])) ∧
    ((execute_arbitrage e opp).2.1.consecutive_failures =
        e.consecutive_failures + 1 →
      ∃ err, (execute_two_step_arbitrage e.env opp.from_dex opp.to_dex opp
        (opp.trade_amount * opp.sell_price * (1 - get_actual_slippage e.cfg / 100))
        e.cfg.simulationMode e.cfg.transactionTimeoutSec).res = .error err) := by
  refine ⟨?_, ?_, ?_⟩
  · intro hnone
    unfold execute_arbitrage
    simp only [hnone]
  · intro hbuy hnone
    unfold execute_arbitrage
    simp only [hbuy, hnone]
  · intro hinc
    unfold execute_arbitrage at hinc
    cases hb : get_dex e.cfg opp.from_dex with
    | none =>
      rw [hb] at hinc
      simp at hinc
    | some bd =>
      obtain rfl := get_dex_some_eq hb
      cases hs : get_dex e.cfg opp.to_dex with
      | none =>
        rw [hb, hs] at hinc
        simp at hinc
      | some sd =>
        obtain rfl := get_dex_some_eq hs
        rw [hb, hs] at hinc
        simp only [can_execute_atomically, Bool.false_eq_true, if_false] at hinc
        cases hr : (execute_two_step_arbitrage e.env opp.from_dex opp.to_dex opp
          (opp.trade_amount * opp.sell_price *
            (1 - get_actual_slippage e.cfg / 100))
          e.cfg.simulationMode e.cfg.transactionTimeoutSec).res with
        | ok v =>
          rw [hr] at hinc
          simp at hinc
        | error err => exact ⟨err, rfl⟩

/-- C10 witness: a buy venue named `bogus` is not registered, so the call
errors with not-found, leaves the engine untouched and submits nothing; an
unknown sell venue behaves the same; and on `failingEngine`, whose counter
does get incremented, the two-step path indeed failed. -/
theorem execute_arbitrage_unknown_venue_witness :
    execute_arbitrage ⟨sampleConfig, sampleEnv, 4⟩
        { sampleOpportunity with from_dex := "bogus" } =
      (.error (.dexNotFound "bogus"), ⟨sampleConfig, sampleEnv, 4⟩, []) ∧
    execute_arbitrage ⟨sampleConfig, sampleEnv, 4⟩
        { sampleOpportunity with to_dex := "bogus" } =
      (.error (.dexNotFound "bogus"), ⟨sampleConfig, sampleEnv, 4⟩, []) ∧
    ∃ err, (execute_two_step_arbitrage failingEngine.env
      sampleOpportunity.from_dex sampleOpportunity.to_dex sampleOpportunity
      (sampleOpportunity.trade_amount * sampleOpportunity.sell_price *
        (1 - get_actual_slippage failingEngine.cfg / 100))
      failingEngine.cfg.simulationMode
      failingEngine.cfg.transactionTimeoutSec).res = .error err :=
  ⟨(execute_arbitrage_unknown_venue ⟨sampleConfig, sampleEnv, 4⟩
      { sampleOpportunity with from_dex := "bogus" }).1
      (by with_unfolding_all decide),
   (execute_arbitrage_unknown_venue ⟨sampleConfig, sampleEnv, 4⟩
      { sampleOpportunity with to_dex := "bogus" }).2.1
      (by with_unfolding_all decide) (by with_unfolding_all decide),
   (execute_arbitrage_unknown_venue failingEngine sampleOpportunity).2.2
      (by with_unfolding_all decide)⟩

end ArbBot
